import Mathlib

/-!
Verification of the eden.printify client/templating layer.

The Python sources are shallowly embedded: JSON-ish dynamic values become
the inductive `JValue`, Python dict/truthiness operations become helper
functions, and each function under scrutiny is translated into a Lean
definition with explicit state passing.  Floats are modelled as exact
rationals (the values exercised here, such as `0.0`, are exactly
representable).
-/

/-- A JSON-like dynamic value, mirroring what Python's `json.load` produces
(`None`, `bool`, `int`, `float`, `str`, `list`, `dict`).  Dicts are ordered
key/value lists, matching Python's insertion-ordered dicts. -/
inductive JValue : Type where
  | jnull : JValue
  | jbool (b : Bool) : JValue
  | jint (n : Int) : JValue
  | jfloat (q : Rat) : JValue
  | jstr (s : String) : JValue
  | jarr (xs : List JValue) : JValue
  | jobj (fs : List (String × JValue)) : JValue
  deriving Repr

namespace JValue

/-- Python truthiness (`bool(x)`) on the JSON value domain. -/
def truthy : JValue → Bool
  | jnull => false
  | jbool b => b
  | jint n => n != 0
  | jfloat q => q != 0
  | jstr s => s != ""
  | jarr xs => !xs.isEmpty
  | jobj fs => !fs.isEmpty

/-- Key lookup in an ordered field list (Python dict keys are unique;
first match). -/
def getField : List (String × JValue) → String → Option JValue
  | [], _ => none
  | (k, v) :: rest, key => if k = key then some v else getField rest key

/-- Python `x.get(key)` — `none` for absent keys and for non-dict receivers. -/
def get : JValue → String → Option JValue
  | jobj fs, key => getField fs key
  | _, _ => none

/-- Python `x.get(key, default)`. -/
def getD (j : JValue) (key : String) (d : JValue) : JValue :=
  (j.get key).getD d

/-- Field update in an ordered field list: Python dict assignment keeps an
existing key's position and appends a fresh key at the end. -/
def setField : List (String × JValue) → String → JValue → List (String × JValue)
  | [], key, v => [(key, v)]
  | (k, w) :: rest, key, v =>
    if k = key then (key, v) :: rest else (k, w) :: setField rest key v

/-- Python `x[key] = v` on a dict value (non-dicts are returned unchanged; the
embedded code only assigns into dicts). -/
def set : JValue → String → JValue → JValue
  | jobj fs, key, v => jobj (setField fs key v)
  | j, _, _ => j

/-- Rendering of a float value, Python `str()` style for the exactly
representable values this code manipulates (`0.0`, `1.5`, ...). -/
def floatStr (q : Rat) : String :=
  if q.den = 1 then toString q.num ++ ".0" else toString q

mutual

/-- Python `repr()` on the JSON value domain (string-escaping corner cases
are not exercised by this code base). -/
def pyRepr : JValue → String
  | jnull => "None"
  | jbool b => if b then "True" else "False"
  | jint n => toString n
  | jfloat q => floatStr q
  | jstr s => "'" ++ s ++ "'"
  | jarr xs => "[" ++ pyReprList xs ++ "]"
  | jobj fs => "\x7b" ++ pyReprFields fs ++ "\x7d"

def pyReprList : List JValue → String
  | [] => ""
  | [x] => pyRepr x
  | x :: y :: xs => pyRepr x ++ ", " ++ pyReprList (y :: xs)

def pyReprFields : List (String × JValue) → String
  | [] => ""
  | [(k, v)] => "'" ++ k ++ "': " ++ pyRepr v
  | (k, v) :: f :: fs => "'" ++ k ++ "': " ++ pyRepr v ++ ", " ++ pyReprFields (f :: fs)

end

/-- Python `str()`: identity on strings, `repr` on everything else. -/
def pyStr : JValue → String
  | jstr s => s
  | v => pyRepr v

end JValue

/-- Does the character list start with the pattern? -/
def startsWithChars : List Char → List Char → Bool
  | _, [] => true
  | [], _ :: _ => false
  | c :: cs, p :: ps => c == p && startsWithChars cs ps

/-- Substring search over character lists. -/
def containsChars : List Char → List Char → Bool
  | [], pat => pat.isEmpty
  | c :: cs, pat => startsWithChars (c :: cs) pat || containsChars cs pat

/-- Python's substring test `pat in s`. -/
def strContains (s pat : String) : Bool := containsChars s.data pat.data

/-- Python's `str.lower()` (over the ASCII data this code handles). -/
def pyLower (s : String) : String := String.mk (s.data.map Char.toLower)

/-- Record `PrintifyBlueprint` (printify_types/printify.py): id, title,
description, brand, model. -/
structure Blueprint where
  id : Int
  title : String
  description : String
  brand : String
  model : String
  deriving Repr, DecidableEq

/-- Record `PrintifyShop` (printify_types/printify.py): id (declared `str`), title,
sales_channel. -/
structure Shop where
  id : String
  title : String
  sales_channel : String
  deriving Repr, DecidableEq

/-- The validation performed by the `PrintifyShop(**shop)` pydantic
constructor: id, title and sales_channel must be present as strings (extra
fields are ignored; integer ids never reach validation because `get_shops`
stringifies them first). -/
def parseShop (j : JValue) : Option Shop :=
  match j.get "id", j.get "title", j.get "sales_channel" with
  | some (.jstr i), some (.jstr t), some (.jstr sc) => some ⟨i, t, sc⟩
  | _, _, _ => none

/-- The id fixup in `PrintifyApiClient.get_shops` (printify_api.py 99-100):
`if isinstance(shop.get('id'), int): shop['id'] = str(shop['id'])`. -/
def stringifyShopId (r : JValue) : JValue :=
  match r.get "id" with
  | some (.jint n) => r.set "id" (.jstr (toString n))
  | _ => r

/-- One iteration of the loop in `PrintifyApiClient.get_shops`
(printify_api.py 96-101): apply the id fixup, then run the `PrintifyShop`
constructor. -/
def shopRecordToShop (r : JValue) : Except Unit Shop :=
  match parseShop (stringifyShopId r) with
  | some s => .ok s
  | none => .error ()

/-- The loop of `get_shops`: convert records in order; the first validation
failure aborts the whole call (the Python exception propagates). -/
def shopsFromRecords : List JValue → Except Unit (List Shop)
  | [] => .ok []
  | r :: rs =>
    match shopRecordToShop r, shopsFromRecords rs with
    | .ok s, .ok ss => .ok (s :: ss)
    | .ok _, .error e => .error e
    | .error e, _ => .error e

/-- Function `PrintifyApiClient.get_shops` (printify_api.py 92-105), as a function of
the decoded HTTP response body: iterate the response list, stringifying
integer ids before constructing each `PrintifyShop`. -/
def get_shops (response : JValue) : Except Unit (List Shop) :=
  match response with
  | .jarr records => shopsFromRecords records
  | _ => .error ()

/-- Constructor `PrintifyApiClient.__init__` (printify_api.py 18-26): the shop id
defaults to the empty string when not supplied. -/
structure Client where
  api_token : String
  shop_id : String
  deriving Repr, DecidableEq

def clientInit (api_token : String) (shop_id : Option String) : Client :=
  ⟨api_token, shop_id.getD ""⟩

/-- The conditions `create_with_dynamic_shop_id` can fail with: a propagated
transport failure from `get_shops`, or the explicit "No shops found"
ValueError. -/
inductive ResolveError where
  | transport
  | noShops
  deriving Repr, DecidableEq

/-- Function `PrintifyApiClient.create_with_dynamic_shop_id` (printify_api.py 28-47):
fetch the shops; an empty list raises the "No shops found" ValueError;
otherwise bind to the first returned shop (the single-shop and the
multiple-shops branch both construct the client from `shops[0].id`, the
latter after a warning). -/
def create_with_dynamic_shop_id (api_token : String) (shopsResponse : JValue) :
    Except ResolveError Client :=
  match get_shops shopsResponse with
  | .error _ => .error .transport
  | .ok [] => .error .noShops
  | .ok (s :: _) => .ok (clientInit api_token (some s.id))

/-- Function `DynamicTemplateHelper._process_variant_options`
(dynamic_template_helper.py 380-395): falsy options give `[]`, a list is
returned unchanged, a dict becomes `[ \x7b id: i+1, value: str(value) \x7d ]`
over the dict's entries in order, anything else gives `[]`. -/
def process_variant_options (options : JValue) : List JValue :=
  if !options.truthy then []
  else match options with
    | .jarr xs => xs
    | .jobj fs =>
      fs.enum.map (fun p =>
        .jobj [("id", .jint (p.1 + 1)), ("value", .jstr (JValue.pyStr p.2.2))])
    | _ => []

/-- Function `DynamicTemplateHelper._categorize_blueprint`
(dynamic_template_helper.py 227-263): lower-case the title and description,
then walk an ordered keyword if-chain, returning the first hit and
defaulting to "other". -/
def categorize_blueprint (bp : Blueprint) : String :=
  let title := pyLower bp.title
  let description := pyLower bp.description
  if strContains title "t-shirt" || strContains title "tee" || strContains description "t-shirt" then "t-shirts"
  else if strContains title "hoodie" || strContains title "sweatshirt" then "hoodies"
  else if strContains title "mug" || strContains title "cup" then "mugs"
  else if strContains title "poster" || strContains title "print" then "posters"
  else if strContains title "phone" || strContains title "case" then "phone-cases"
  else if strContains title "bag" || strContains title "tote" then "bags"
  else if strContains title "hat" || strContains title "cap" then "hats"
  else if strContains title "tank" || strContains title "sleeveless" then "tank-tops"
  else if strContains title "sticker" then "stickers"
  else if strContains title "pillow" then "pillows"
  else if strContains title "towel" then "towels"
  else if strContains title "sock" then "socks"
  else if strContains title "jacket" then "jackets"
  else if strContains title "dress" then "dresses"
  else if strContains title "pant" || strContains title "legging" then "pants"
  else "other"

/-- The categorizer's keyword rules as an ordered table: each rule is a
predicate over the (lower-cased) title and description, paired with the
category it assigns.  Stated from the spec's description of the algorithm,
to be compared with `categorize_blueprint`. -/
def categoryRules : List ((String → String → Bool) × String) :=
  [ (fun t d => strContains t "t-shirt" || strContains t "tee" || strContains d "t-shirt", "t-shirts"),
    (fun t _ => strContains t "hoodie" || strContains t "sweatshirt", "hoodies"),
    (fun t _ => strContains t "mug" || strContains t "cup", "mugs"),
    (fun t _ => strContains t "poster" || strContains t "print", "posters"),
    (fun t _ => strContains t "phone" || strContains t "case", "phone-cases"),
    (fun t _ => strContains t "bag" || strContains t "tote", "bags"),
    (fun t _ => strContains t "hat" || strContains t "cap", "hats"),
    (fun t _ => strContains t "tank" || strContains t "sleeveless", "tank-tops"),
    (fun t _ => strContains t "sticker", "stickers"),
    (fun t _ => strContains t "pillow", "pillows"),
    (fun t _ => strContains t "towel", "towels"),
    (fun t _ => strContains t "sock", "socks"),
    (fun t _ => strContains t "jacket", "jackets"),
    (fun t _ => strContains t "dress", "dresses"),
    (fun t _ => strContains t "pant" || strContains t "legging", "pants") ]

/-- First-match semantics over an ordered rule table, defaulting to
"other": the spec-side formulation of categorization. -/
def firstMatchCategory : List ((String → String → Bool) × String) → String → String → String
  | [], _, _ => "other"
  | r :: rs, t, d => if r.1 t d then r.2 else firstMatchCategory rs t d

/-- Is the value a Python dict? -/
def isJObj : JValue → Bool
  | .jobj _ => true
  | _ => false

/-- Python's `str.startswith` over the character data. -/
def pyStartsWith (s pat : String) : Bool := startsWithChars s.data pat.data

/-- The numeric value of a Python number (`bool` counts as 0/1, matching
Python's numeric tower). -/
def numVal : JValue → Option Rat
  | .jbool b => some (if b then 1 else 0)
  | .jint n => some (n : Rat)
  | .jfloat q => some q
  | _ => none

mutual

/-- Python `==` on the JSON value domain: `None` equals only `None`,
numbers (bool/int/float) compare by numeric value, strings by value, lists
pointwise.  Dicts are compared field-by-field in order (Python dict equality
ignores key order, but the embedded code only ever compares scalar id
fields). -/
def pyEq : JValue → JValue → Bool
  | .jnull, .jnull => true
  | .jstr s, .jstr t => s == t
  | .jarr xs, .jarr ys => pyEqList xs ys
  | .jobj fs, .jobj gs => pyEqFields fs gs
  | a, b =>
    match numVal a, numVal b with
    | some x, some y => x == y
    | _, _ => false

def pyEqList : List JValue → List JValue → Bool
  | [], [] => true
  | x :: xs, y :: ys => pyEq x y && pyEqList xs ys
  | _, _ => false

def pyEqFields : List (String × JValue) → List (String × JValue) → Bool
  | [], [] => true
  | (k, v) :: fs, (k', v') :: gs => k == k' && pyEq v v' && pyEqFields fs gs
  | _, _ => false

end

/-- Python's `int(x)` on the values reaching the angle coercion: ints are
kept, bools become 0/1, floats truncate toward zero; other types raise
(`none`).  (Angle fields in this data model are numeric, so `int()` of a
digit string is not modelled.) -/
def pyIntOf : JValue → Option Int
  | .jint n => some n
  | .jbool b => some (if b then 1 else 0)
  | .jfloat q => some (Int.tdiv q.num (q.den : Int))
  | _ => none

/-- Function `PrintifyApiClient.get_variants` (printify_api.py 134-141), as a
function of the decoded HTTP response body: `response if
isinstance(response, list) else []` — any non-list response, including a
`\x7b "variants": [...] \x7d` wrapper object, becomes the empty list. -/
def get_variants (response : JValue) : List JValue :=
  match response with
  | .jarr xs => xs
  | _ => []

/-- The callers' unwrapping expression (dynamic_template_helper.py 107 and
template_generator.py 128): `variants_response.get('variants',
variants_response) if isinstance(variants_response, dict) else
variants_response`. -/
def unwrapVariants (variants_response : JValue) : JValue :=
  match variants_response with
  | .jobj fs => (JValue.getField fs "variants").getD (.jobj fs)
  | v => v

/-- The variant sequence the callers end up iterating: the client's
`get_variants` result (a Python list) fed through the callers' unwrapping
expression (which, on a list, is the identity). -/
def variantsSeq (response : JValue) : List JValue :=
  match unwrapVariants (.jarr (get_variants response)) with
  | .jarr xs => xs
  | _ => []

/-- Table of `DynamicTemplateHelper._estimate_price` (dynamic_template_helper.py
265-286): the category → price table with default 2000. -/
def price_map : List (String × Int) :=
  [("t-shirts", 2500), ("hoodies", 4500), ("mugs", 1500), ("posters", 2000),
   ("phone-cases", 1800), ("bags", 3000), ("hats", 2200), ("tank-tops", 2000),
   ("stickers", 500), ("pillows", 3500), ("towels", 2500), ("socks", 1200),
   ("jackets", 5500), ("dresses", 4000), ("pants", 3500), ("other", 2000)]

def estimate_price (category : String) : Int :=
  ((price_map.find? (fun kv => kv.1 == category)).map Prod.snd).getD 2000

/-- Table of `DynamicTemplateHelper._estimate_weight` (dynamic_template_helper.py
288-309): the category → weight table with default 200. -/
def weight_map : List (String × Int) :=
  [("t-shirts", 180), ("hoodies", 400), ("mugs", 350), ("posters", 50),
   ("phone-cases", 30), ("bags", 200), ("hats", 100), ("tank-tops", 150),
   ("stickers", 5), ("pillows", 500), ("towels", 300), ("socks", 50),
   ("jackets", 600), ("dresses", 250), ("pants", 300), ("other", 200)]

def estimate_weight (category : String) : Int :=
  ((weight_map.find? (fun kv => kv.1 == category)).map Prod.snd).getD 200

/-- Record `PrintifyPrintProvider` (printify_types/printify.py): id, title, and a
location that the API delivers either as a string or as a structured
record. -/
structure PrintProvider where
  id : Int
  title : String
  location : JValue
  deriving Repr

/-- The placeholder image dict built by
`DynamicTemplateHelper._generate_placeholders` (dynamic_template_helper.py
345-356) for position `pos`: id "placeholder_" + position, name
"(title) (position) design", fixed stock URLs, x = 0, y = 0, scale = 1,
angle = 0. -/
def dynPlaceholderImage (bpTitle : String) (pos : JValue) : JValue :=
  .jobj [("id", .jstr ("placeholder_" ++ JValue.pyStr pos)),
         ("name", .jstr (bpTitle ++ " " ++ JValue.pyStr pos ++ " design")),
         ("url", .jstr "https://example.com/placeholder-image.png"),
         ("preview_url", .jstr "https://example.com/placeholder-image.png"),
         ("x", .jint 0), ("y", .jint 0), ("scale", .jint 1), ("angle", .jint 0)]

/-- One entry of the comprehension in `_generate_placeholders`: the source
entry must be a dict (`placeholder.get` raises otherwise); its position is
`placeholder.get('position', 'front')`, taken verbatim. -/
def placeholderEntry (bpTitle : String) (ph : JValue) : Option JValue :=
  match ph with
  | .jobj _ =>
    some (.jobj [("position", ph.getD "position" (.jstr "front")),
                 ("images", .jarr [dynPlaceholderImage bpTitle
                    (ph.getD "position" (.jstr "front"))])])
  | _ => none

/-- Function `DynamicTemplateHelper._generate_placeholders`
(dynamic_template_helper.py 339-378): with truthy placeholder metadata on
the variant, one placeholder per source entry; otherwise the single default
"front" placeholder.  `none` models the comprehension raising (non-list
metadata, or a non-dict entry). -/
def generate_placeholders (variant : JValue) (bp : Blueprint) : Option (List JValue) :=
  if (variant.getD "placeholders" .jnull).truthy then
    match variant.get "placeholders" with
    | some (.jarr phs) => phs.mapM (placeholderEntry bp.title)
    | _ => none
  else
    some [.jobj [("position", .jstr "front"),
                 ("images", .jarr [dynPlaceholderImage bp.title (.jstr "front")])]]

/-- The errors `generate_product_template` can raise: the two explicit
"not found" ValueErrors, the "No variants found" ValueError, and a type
error raised inside the template comprehensions. -/
inductive GenError where
  | blueprintNotFound
  | providerNotFound
  | noVariants
  | typeError
  deriving Repr, DecidableEq

/-- The per-variant record built by `generate_product_template`
(dynamic_template_helper.py 118-128). -/
def dynVariantRecord (category : String) (price : JValue) (headId : JValue)
    (v : JValue) : JValue :=
  .jobj [("id", v.getD "id" .jnull),
         ("price", price),
         ("is_enabled", .jbool true),
         ("is_default", .jbool (pyEq (v.getD "id" .jnull) headId)),
         ("grams", .jint (estimate_weight category)),
         ("options", .jarr (process_variant_options (v.getD "options" (.jarr []))))]

/-- Function `DynamicTemplateHelper.generate_product_template`
(dynamic_template_helper.py 87-142), as a function of the fetched catalog
data: look up the blueprint and provider by id (ValueError when absent),
fetch-and-unwrap the variants (ValueError when empty), then build the
template dict with one variant record and one print area per variant. -/
def generate_product_template (blueprints : List Blueprint)
    (providers : List PrintProvider) (blueprint_id print_provider_id : Int)
    (variantsResponse : JValue) (customizations : JValue) :
    Except GenError JValue :=
  match blueprints.find? (fun bp => bp.id == blueprint_id) with
  | none => .error .blueprintNotFound
  | some blueprint =>
    match providers.find? (fun p => p.id == print_provider_id) with
    | none => .error .providerNotFound
    | some provider =>
      let variants := variantsSeq variantsResponse
      if variants.isEmpty then .error .noVariants
      else if !(variants.all isJObj) then .error .typeError
      else
        match variants.mapM (fun v =>
            (generate_placeholders v blueprint).map (fun phs =>
              (.jobj [("variant_ids", .jarr [v.getD "id" .jnull]),
                      ("placeholders", .jarr phs)] : JValue))) with
        | none => .error .typeError
        | some printAreas =>
          let category := categorize_blueprint blueprint
          let defaultTitle := blueprint.title ++ " - " ++ provider.title
          let title := if customizations.truthy then
              customizations.getD "title" (.jstr defaultTitle)
            else .jstr defaultTitle
          let description := if customizations.truthy then
              customizations.getD "description" (.jstr blueprint.description)
            else .jstr blueprint.description
          let price := if customizations.truthy then
              customizations.getD "price" (.jint (estimate_price category))
            else .jint (estimate_price category)
          let headId := (variants.headD .jnull).getD "id" .jnull
          .ok (.jobj
            [("title", title),
             ("description", description),
             ("blueprint_id", .jint blueprint_id),
             ("print_provider_id", .jint print_provider_id),
             ("variants", .jarr (variants.map (dynVariantRecord category price headId))),
             ("print_areas", .jarr printAreas)])

/-- The option processing inlined in
`TemplateGenerator._generate_template_for_combination`
(template_generator.py 142-151): truthy list passes through, truthy dict is
converted to 1-indexed `\x7b id, value \x7d` records, everything else gives
`[]`. -/
def tgProcessOptions (options : JValue) : List JValue :=
  if options.truthy then
    match options with
    | .jarr xs => xs
    | .jobj fs =>
      fs.enum.map (fun p =>
        .jobj [("id", .jint (p.1 + 1)), ("value", .jstr (JValue.pyStr p.2.2))])
    | _ => []
  else []

/-- The placeholder image dict built in `_generate_template_for_combination`
(template_generator.py 159-170): like the dynamic helper's, but with the
fixed id "placeholder_image". -/
def tgPlaceholderImage (bpTitle : String) (pos : JValue) : JValue :=
  .jobj [("id", .jstr "placeholder_image"),
         ("name", .jstr (bpTitle ++ " " ++ JValue.pyStr pos ++ " design")),
         ("url", .jstr "https://example.com/placeholder-image.png"),
         ("preview_url", .jstr "https://example.com/placeholder-image.png"),
         ("x", .jint 0), ("y", .jint 0), ("scale", .jint 1), ("angle", .jint 0)]

/-- One entry of the placeholder comprehension in
`_generate_template_for_combination` (template_generator.py 156-173). -/
def tgPlaceholderEntry (bpTitle : String) (ph : JValue) : Option JValue :=
  match ph with
  | .jobj _ =>
    some (.jobj [("position", ph.getD "position" (.jstr "front")),
                 ("images", .jarr [tgPlaceholderImage bpTitle
                    (ph.getD "position" (.jstr "front"))])])
  | _ => none

/-- The default "front" placeholder of `_generate_template_for_combination`
(template_generator.py 176-192), with image id "placeholder_front". -/
def tgDefaultFrontPlaceholder (bpTitle : String) : JValue :=
  .jobj [("position", .jstr "front"),
         ("images", .jarr
           [.jobj [("id", .jstr "placeholder_front"),
                   ("name", .jstr (bpTitle ++ " front design")),
                   ("url", .jstr "https://example.com/placeholder-image.png"),
                   ("preview_url", .jstr "https://example.com/placeholder-image.png"),
                   ("x", .jint 0), ("y", .jint 0), ("scale", .jint 1),
                   ("angle", .jint 0)]])]

/-- Function `TemplateGenerator._generate_template_for_combination`
(template_generator.py 123-226), as a function of the variant-fetch
outcome.  Every exception inside the body — a failed fetch, a non-dict
variant reaching `v.get`, malformed placeholder metadata — is caught by the
function's own `except`, which returns `None`; likewise an empty or
id-less variant list returns `None`. -/
def generate_template_for_combination (bp : Blueprint) (provider : PrintProvider)
    (variantsResponse : Except Unit JValue) : Option JValue :=
  match variantsResponse with
  | .error _ => none
  | .ok vr =>
    let variants := variantsSeq vr
    if variants.isEmpty then none
    else if !(variants.all isJObj) then none
    else
      match variants.filter (fun v => (v.getD "id" .jnull).truthy) with
      | [] => none
      | default_variant :: _ =>
        let options := tgProcessOptions (default_variant.getD "options" .jnull)
        match (if (default_variant.getD "placeholders" .jnull).truthy then
                 match default_variant.get "placeholders" with
                 | some (.jarr phs) => phs.mapM (tgPlaceholderEntry bp.title)
                 | _ => none
               else some [tgDefaultFrontPlaceholder bp.title]) with
        | none => none
        | some placeholders =>
          some (.jobj
            [("title", .jstr (bp.title ++ " - " ++ provider.title)),
             ("description", .jstr bp.description),
             ("blueprint_id", .jint bp.id),
             ("print_provider_id", .jint provider.id),
             ("blueprint_title", .jstr bp.title),
             ("print_provider_title", .jstr provider.title),
             ("brand", .jstr bp.brand),
             ("model", .jstr bp.model),
             ("variants", .jarr
               [.jobj [("id", default_variant.getD "id" .jnull),
                       ("price", .jint 2500),
                       ("is_enabled", .jbool true),
                       ("is_default", .jbool true),
                       ("grams", .jint 180),
                       ("options", .jarr options)]]),
             ("print_areas", .jarr
               [.jobj [("variant_ids", .jarr [default_variant.getD "id" .jnull]),
                       ("placeholders", .jarr placeholders)]])])

/-- A fetched variant list over which `_generate_template_for_combination`
is guaranteed to produce a template: non-empty, every element a dict, at
least one element with a truthy id, and the first such element's
placeholder metadata either falsy or a list of dicts. -/
def goodVariantList (vs : List JValue) : Bool :=
  !vs.isEmpty && vs.all isJObj &&
    (match vs.filter (fun v => (v.getD "id" .jnull).truthy) with
     | [] => false
     | dv :: _ =>
       if (dv.getD "placeholders" .jnull).truthy then
         match dv.get "placeholders" with
         | some (.jarr phs) => phs.all isJObj
         | _ => false
       else true)

/-- The catalog environment the bulk generator runs against: the blueprint
listing, plus the outcomes of the per-blueprint provider fetch and the
per-combination variant fetch (`.error` models a raised transport
failure). -/
structure Catalog where
  blueprints : List Blueprint
  providersFor : Int → Except Unit (List PrintProvider)
  variantsFor : Int → Int → Except Unit JValue

/-- The counters of the summary dict returned by
`TemplateGenerator.generate_all_templates` (template_generator.py 91-96). -/
structure GenSummary where
  total_templates : Nat
  total_blueprints : Nat
  deriving Repr, DecidableEq

/-- The per-provider loop body (template_generator.py 57-80): a produced
template bumps the counter; a `None` template, or a caught per-provider
failure, is skipped. -/
def processProvider (cat : Catalog) (bp : Blueprint) (acc : Nat)
    (p : PrintProvider) : Nat :=
  match generate_template_for_combination bp p (cat.variantsFor bp.id p.id) with
  | some _ => acc + 1
  | none => acc

/-- The per-blueprint loop body (template_generator.py 46-86): a failed
provider fetch is caught and skipped; a blueprint with a truthy provider
list bumps `total_blueprints` and then runs the provider loop. -/
def processBlueprint (cat : Catalog) (acc : GenSummary) (bp : Blueprint) :
    GenSummary :=
  match cat.providersFor bp.id with
  | .error _ => acc
  | .ok providers =>
    if providers.isEmpty then acc
    else
      { total_blueprints := acc.total_blueprints + 1,
        total_templates := providers.foldl (processProvider cat bp) acc.total_templates }

/-- Function `TemplateGenerator.generate_all_templates` (template_generator.py
30-100), reduced to its counters: fold the per-blueprint body over the
blueprint listing, starting from zero. -/
def generate_all_templates (cat : Catalog) : GenSummary :=
  cat.blueprints.foldl (processBlueprint cat) ⟨0, 0⟩

/-- The `\x7b id, url, preview_url \x7d` triple returned by
`ProductImageProcessor._upload_image_url_to_printify`
(product_image_processor.py 103-107). -/
structure UploadResult where
  id : JValue
  url : JValue
  preview_url : JValue

/-- One image of the innermost loop of
`ProductImageProcessor._process_images_in_product`
(product_image_processor.py 58-76), parameterized by the upload call: a
dict image with a string url starting with "http" is uploaded; on success
its id/url/preview_url are replaced, on failure the exception is caught and
the original image data is kept (source comment: "Keep the original image
data if upload fails").  Images without a url are skipped; a non-string
url raises in `.startswith` (the non-dict image shapes are not exercised
and are treated as skipped, matching the falsy `'url' in image` test). -/
def processImage (upload : String → JValue → Except Unit UploadResult)
    (img : JValue) : Except Unit JValue :=
  match img with
  | .jobj _ =>
    match img.get "url" with
    | some (.jstr u) =>
      if pyStartsWith u "http" then
        match upload u (img.getD "name" (.jstr "uploaded_image")) with
        | .ok r =>
          .ok (((img.set "id" r.id).set "url" r.url).set "preview_url" r.preview_url)
        | .error _ => .ok img
      else .ok img
    | some _ => .error ()
    | none => .ok img
  | _ => .ok img

/-- The `'images' in placeholder` level of `_process_images_in_product`
(product_image_processor.py 56-58). -/
def processPlaceholderImages (upload : String → JValue → Except Unit UploadResult)
    (ph : JValue) : Except Unit JValue :=
  match ph with
  | .jobj _ =>
    match ph.get "images" with
    | some (.jarr imgs) =>
      (imgs.mapM (processImage upload)).map (fun out => ph.set "images" (.jarr out))
    | some _ => .error ()
    | none => .ok ph
  | _ => .error ()

/-- The `'placeholders' in print_area` level of `_process_images_in_product`
(product_image_processor.py 54-56). -/
def processPrintAreaImages (upload : String → JValue → Except Unit UploadResult)
    (pa : JValue) : Except Unit JValue :=
  match pa with
  | .jobj _ =>
    match pa.get "placeholders" with
    | some (.jarr phs) =>
      (phs.mapM (processPlaceholderImages upload)).map
        (fun out => pa.set "placeholders" (.jarr out))
    | some _ => .error ()
    | none => .ok pa
  | _ => .error ()

/-- Function `ProductImageProcessor._process_images_in_product`
(product_image_processor.py 49-82): walk print_areas → placeholders →
images, uploading and substituting each placeholder image, and return the
(possibly partially substituted) product data as a success value. -/
def process_images_in_product (upload : String → JValue → Except Unit UploadResult)
    (pd : JValue) : Except Unit JValue :=
  match pd with
  | .jobj _ =>
    match pd.get "print_areas" with
    | some (.jarr pas) =>
      (pas.mapM (processPrintAreaImages upload)).map
        (fun out => pd.set "print_areas" (.jarr out))
    | some _ => .error ()
    | none => .ok pd
  | _ => .error ()

/-- An uploader whose HTTP call always fails (the per-image `except` path
of the processor). -/
def alwaysFailUpload : String → JValue → Except Unit UploadResult :=
  fun _ _ => .error ()

/-- The id/preview_url pair of an image uploaded by
`upload_image_to_printify` in step2_upload_product.py (the update loop
reads exactly these two fields). -/
structure UploadedImage where
  id : String
  preview_url : String
  deriving Repr, DecidableEq

/-- Lookup `image_mapping.get(position, front_uploaded_image)`
(step2_upload_product.py 149-158): the mapping holds "front" and "back";
any other position falls back to the front image. -/
def imageForPosition (front back : UploadedImage) (pos : JValue) : UploadedImage :=
  match pos with
  | .jstr s => if s == "back" then back else front
  | _ => front

/-- The per-image update of `upload_product` (step2_upload_product.py
160-167): replace id, url and preview_url with the uploaded image's data,
rename to "(position)_design.jpg", and coerce the angle to an integer
(`image['angle'] = int(image.get('angle', 0))`); a non-numeric angle makes
`int()` raise. -/
def updateImage (upl : UploadedImage) (pos : JValue) (img : JValue) :
    Except Unit JValue :=
  match img with
  | .jobj _ =>
    match pyIntOf (img.getD "angle" (.jint 0)) with
    | none => .error ()
    | some a =>
      .ok (((((img.set "id" (.jstr upl.id)).set "url" (.jstr upl.preview_url)).set
          "preview_url" (.jstr upl.preview_url)).set
          "name" (.jstr (JValue.pyStr pos ++ "_design.jpg"))).set "angle" (.jint a))
  | _ => .error ()

/-- The per-placeholder update of `upload_product` (step2_upload_product.py
156-167): resolve the uploaded image for the placeholder's position and
update every image in its list. -/
def updatePlaceholder (front back : UploadedImage) (ph : JValue) :
    Except Unit JValue :=
  match ph with
  | .jobj _ =>
    match ph.get "images" with
    | some (.jarr imgs) =>
      (imgs.mapM
        (updateImage (imageForPosition front back (ph.getD "position" (.jstr "front")))
          (ph.getD "position" (.jstr "front")))).map
        (fun out => ph.set "images" (.jarr out))
    | some _ => .error ()
    | none => .ok ph
  | _ => .error ()

/-- The per-print-area update of `upload_product` (step2_upload_product.py
155-167). -/
def updatePrintArea (front back : UploadedImage) (pa : JValue) :
    Except Unit JValue :=
  match pa with
  | .jobj _ =>
    match pa.get "placeholders" with
    | some (.jarr phs) =>
      (phs.mapM (updatePlaceholder front back)).map
        (fun out => pa.set "placeholders" (.jarr out))
    | some _ => .error ()
    | none => .ok pa
  | _ => .error ()

/-- The image-update phase of `upload_product` (step2_upload_product.py
154-168), the transformation applied to `product.json` before submission:
walk print_areas → placeholders → images, substituting uploaded image data
and coercing every angle to an integer. -/
def updateProductImages (front back : UploadedImage) (pd : JValue) :
    Except Unit JValue :=
  match pd with
  | .jobj _ =>
    match pd.get "print_areas" with
    | some (.jarr pas) =>
      (pas.mapM (updatePrintArea front back)).map
        (fun out => pd.set "print_areas" (.jarr out))
    | some _ => .error ()
    | none => .ok pd
  | _ => .error ()

/-- Observation: the image list of a placeholder dict. -/
def imagesOfPlaceholder (ph : JValue) : List JValue :=
  match ph.get "images" with
  | some (.jarr imgs) => imgs
  | _ => []

/-- Observation: all images of a print area (placeholders → images). -/
def imagesOfPrintArea (pa : JValue) : List JValue :=
  (match pa.get "placeholders" with
   | some (.jarr phs) => phs
   | _ => []).flatMap imagesOfPlaceholder

/-- Observation: all placeholder images of a product dict, in order
(print_areas → placeholders → images), as the submission path reads them. -/
def imagesOf (pd : JValue) : List JValue :=
  (match pd.get "print_areas" with
   | some (.jarr pas) => pas
   | _ => []).flatMap imagesOfPrintArea

/-- Observation: the declared variant ids of a template dict, as the
re-parse path (`ProductJsonFile` / `convert_product_json_to_request`) reads
them: `variant["id"]` for each entry of `template["variants"]`. -/
def templateVariantIds (t : JValue) : Option (List JValue) :=
  match t.get "variants" with
  | some (.jarr vs) => vs.mapM (fun v => v.get "id")
  | _ => none

/-- Observation: the per-print-area variant-id lists of a template dict, as
the re-parse path reads them: `print_area["variant_ids"]` for each entry of
`template["print_areas"]`. -/
def templatePrintAreaIds (t : JValue) : Option (List (List JValue)) :=
  match t.get "print_areas" with
  | some (.jarr pas) =>
    pas.mapM (fun pa =>
      match pa.get "variant_ids" with
      | some (.jarr ids) => some ids
      | _ => none)
  | _ => none

/-- C4: option normalization.  A mapping-typed options value becomes a list of
`\x7b id, value \x7d` records with sequential integer ids starting at 1 in the
mapping's iteration order and each value stringified (the i-th output record is
built from the i-th mapping entry); a list-typed options value passes through
unchanged; the spec's concrete example holds; and the option processing
inlined in the bulk generator agrees with the dynamic helper's. -/
theorem c4_options_normalization :
    (∀ (fs : List (String × JValue)) (i : Nat),
      (process_variant_options (.jobj fs))[i]? =
        fs[i]?.map (fun kv =>
          .jobj [("id", .jint (i + 1)), ("value", .jstr (JValue.pyStr kv.2))]))
    ∧ (∀ xs : List JValue, process_variant_options (.jarr xs) = xs)
    ∧ process_variant_options
        (.jobj [("color", .jstr "Red"), ("size", .jstr "L")]) =
        [.jobj [("id", .jint 1), ("value", .jstr "Red")],
         .jobj [("id", .jint 2), ("value", .jstr "L")]]
    ∧ (∀ options : JValue, tgProcessOptions options = process_variant_options options) := by
  refine ⟨fun fs i => ?_, fun xs => ?_, rfl, fun o => ?_⟩
  · cases fs with
    | nil => simp [process_variant_options, JValue.truthy]
    | cons kv fs' =>
      simp [process_variant_options, JValue.truthy, List.getElem?_map,
        List.getElem?_enum, Option.map_map]
      rfl
  · cases xs with
    | nil => rfl
    | cons x xs' => rfl
  · rw [tgProcessOptions.eq_def, process_variant_options.eq_def]
    by_cases h : o.truthy = true
    · rw [if_pos h, if_neg (by simp [h])]
    · have h' : o.truthy = false := by revert h; cases o.truthy <;> simp
      rw [h']
      rfl

theorem categorize_is_first_match (bp : Blueprint) :
    categorize_blueprint bp =
      firstMatchCategory categoryRules (pyLower bp.title) (pyLower bp.description) := rfl

theorem firstMatchCategory_eq_find (rs : List ((String → String → Bool) × String))
    (t d : String) :
    firstMatchCategory rs t d = ((rs.find? (fun r => r.1 t d)).map Prod.snd).getD "other" := by
  induction rs with
  | nil => rfl
  | cons r rs ih =>
    cases h : r.1 t d with
    | true => simp [firstMatchCategory, h, List.find?_cons_of_pos]
    | false => simp [firstMatchCategory, h, List.find?_cons_of_neg, ih]

/-- C8: for every blueprint title/description, categorization walks the ordered
keyword table and returns the category of the first rule that matches
(`List.find?` returns the first hit), defaulting to "other" when no rule
matches.  "Tank Dress" satisfies both the tank-tops rule (index 7) and the
later dresses rule (index 13) yet classifies as "tank-tops" (first-match, not
best-match); a title/description matching no rule gives "other". -/
theorem c8_categorization_first_match :
    (∀ bp : Blueprint,
      categorize_blueprint bp =
        ((categoryRules.find?
            (fun r => r.1 (pyLower bp.title) (pyLower bp.description))).map Prod.snd).getD
          "other")
    ∧ categorize_blueprint ⟨1, "Tank Dress", "plain", "b", "m"⟩ = "tank-tops"
    ∧ (categoryRules.get? 7).map (fun r => r.1 (pyLower "Tank Dress") (pyLower "plain"))
        = some true
    ∧ (categoryRules.get? 7).map Prod.snd = some "tank-tops"
    ∧ (categoryRules.get? 13).map (fun r => r.1 (pyLower "Tank Dress") (pyLower "plain"))
        = some true
    ∧ (categoryRules.get? 13).map Prod.snd = some "dresses"
    ∧ categorize_blueprint ⟨1, "Gizmo", "widget", "b", "m"⟩ = "other" := by
  refine ⟨fun bp => ?_, rfl, rfl, rfl, rfl, rfl, rfl⟩
  rw [categorize_is_first_match, firstMatchCategory_eq_find]

theorem getField_setField (fs : List (String × JValue)) (k : String) (v : JValue) :
    JValue.getField (JValue.setField fs k v) k = some v := by
  induction fs with
  | nil => simp [JValue.setField, JValue.getField]
  | cons kv rest ih =>
    obtain ⟨k', w⟩ := kv
    by_cases h : k' = k
    · simp [JValue.setField, JValue.getField, h]
    · simp [JValue.setField, JValue.getField, h, ih]

theorem parseShop_id (j : JValue) (s : Shop) (h : parseShop j = some s) :
    j.get "id" = some (.jstr s.id) := by
  unfold parseShop at h
  split at h
  · rename_i i t sc hi ht hsc
    cases h
    exact hi
  · cases h

theorem get_some_obj (r : JValue) (k : String) (v : JValue) (h : r.get k = some v) :
    ∃ fs, r = .jobj fs := by
  cases r <;> first | exact ⟨_, rfl⟩ | simp [JValue.get] at h

theorem shopRecordToShop_parse (r : JValue) (s : Shop) (h : shopRecordToShop r = .ok s) :
    parseShop (stringifyShopId r) = some s := by
  unfold shopRecordToShop at h
  split at h
  · rename_i s' hp
    injection h with h'
    rw [← h']
    exact hp
  · exact absurd h (by simp)

theorem shopRecordToShop_id (r : JValue) (s : Shop) (h : shopRecordToShop r = .ok s) :
    (∀ n : Int, r.get "id" = some (.jint n) → s.id = toString n) ∧
    (∀ t : String, r.get "id" = some (.jstr t) → s.id = t) := by
  have hp := shopRecordToShop_parse r s h
  constructor
  · intro n hn
    obtain ⟨fs, rfl⟩ := get_some_obj r "id" _ hn
    rw [stringifyShopId, hn] at hp
    have hid := parseShop_id _ _ hp
    rw [show (JValue.set (.jobj fs) "id" (.jstr (toString n))).get "id"
        = some (.jstr (toString n)) by simp [JValue.set, JValue.get, getField_setField]] at hid
    injection hid with hid'
    injection hid' with hid''
    exact hid''.symm
  · intro t ht
    rw [stringifyShopId, ht] at hp
    have hid := parseShop_id _ _ hp
    rw [ht] at hid
    injection hid with hid'
    injection hid' with hid''
    exact hid''.symm

/-- C10: every `Shop` produced by `get_shops` carries a string identifier:
when the response record's id is an integer it is converted to its decimal
string form before the `PrintifyShop` record is constructed, and a string id
is kept as is (pointwise over the response list, which maps one-to-one onto
the result). -/
theorem c10_shop_ids_are_strings (records : List JValue) (shops : List Shop)
    (h : get_shops (.jarr records) = .ok shops) :
    List.Forall₂ (fun r s =>
      (∀ n : Int, JValue.get r "id" = some (.jint n) → Shop.id s = toString n) ∧
      (∀ t : String, JValue.get r "id" = some (.jstr t) → Shop.id s = t))
      records shops := by
  induction records generalizing shops with
  | nil =>
    simp only [get_shops, shopsFromRecords] at h
    cases h
    exact List.Forall₂.nil
  | cons r rs ih =>
    simp only [get_shops, shopsFromRecords] at h
    revert h
    split
    · rename_i s ss hr hrs
      intro h
      cases h
      exact List.Forall₂.cons (shopRecordToShop_id r s hr) (ih ss (by simp [get_shops, hrs]))
    · intro h; cases h
    · intro h; cases h

theorem c10_shop_ids_are_strings_witness :
    List.Forall₂ (fun r s =>
      (∀ n : Int, JValue.get r "id" = some (.jint n) → Shop.id s = toString n) ∧
      (∀ t : String, JValue.get r "id" = some (.jstr t) → Shop.id s = t))
      [.jobj [("id", .jint 42), ("title", .jstr "A"), ("sales_channel", .jstr "x")],
       .jobj [("id", .jstr "abc"), ("title", .jstr "B"), ("sales_channel", .jstr "y")]]
      [⟨"42", "A", "x"⟩, ⟨"abc", "B", "y"⟩] :=
  c10_shop_ids_are_strings _ _ rfl

/-- C7: dynamic shop resolution over a shop listing that returns zero shops
fails with the distinct "no shops" condition (not a client with the empty
default shop id); over a listing that decodes to one or more shops it binds
to the first returned shop's id. -/
theorem c7_dynamic_shop_resolution :
    (∀ token : String,
      create_with_dynamic_shop_id token (.jarr []) = .error .noShops)
    ∧ (∀ (token : String) (response : JValue) (s : Shop) (rest : List Shop),
        get_shops response = .ok (s :: rest) →
        create_with_dynamic_shop_id token response = .ok (clientInit token (some s.id))) := by
  constructor
  · intro token
    rfl
  · intro token response s rest h
    unfold create_with_dynamic_shop_id
    rw [h]

theorem c7_dynamic_shop_resolution_witness :
    create_with_dynamic_shop_id "tok" (.jarr []) = .error .noShops
    ∧ create_with_dynamic_shop_id "tok"
        (.jarr [.jobj [("id", .jint 7), ("title", .jstr "S"), ("sales_channel", .jstr "c")],
                .jobj [("id", .jstr "8"), ("title", .jstr "T"), ("sales_channel", .jstr "d")]])
        = .ok (clientInit "tok" (some "7")) :=
  ⟨c7_dynamic_shop_resolution.1 "tok",
   c7_dynamic_shop_resolution.2 "tok" _ ⟨"7", "S", "c"⟩ [⟨"8", "T", "d"⟩] rfl⟩

theorem option_mapM_mem {α β : Type} (f : α → Option β) :
    ∀ (l : List α) (out : List β), l.mapM f = some out →
      ∀ b ∈ out, ∃ a ∈ l, f a = some b := by
  intro l
  induction l with
  | nil =>
    intro out h b hb
    rw [List.mapM_nil] at h
    cases h
    simp at hb
  | cons a l ih =>
    intro out h b hb
    rw [List.mapM_cons] at h
    cases hfa : f a with
    | none => rw [hfa] at h; simp at h
    | some x =>
      rw [hfa] at h
      cases hml : l.mapM f with
      | none => rw [hml] at h; simp at h
      | some xs =>
        rw [hml] at h
        simp only [Option.bind_some, Option.pure_def, Option.bind_eq_bind,
          Option.some_bind] at h
        cases h
        rcases List.mem_cons.mp hb with hb | hb
        · exact ⟨a, List.mem_cons_self a l, hb ▸ hfa⟩
        · obtain ⟨a', ha', hfa'⟩ := ih xs hml b hb
          exact ⟨a', List.mem_cons_of_mem a ha', hfa'⟩

theorem option_mapM_getElem {α β : Type} (f : α → Option β) :
    ∀ (l : List α) (out : List β), l.mapM f = some out →
      out.length = l.length ∧ ∀ i : Nat, out[i]? = (l[i]?).bind f := by
  intro l
  induction l with
  | nil =>
    intro out h
    rw [List.mapM_nil] at h
    cases h
    exact ⟨rfl, fun i => by simp⟩
  | cons a l ih =>
    intro out h
    rw [List.mapM_cons] at h
    cases hfa : f a with
    | none => rw [hfa] at h; simp at h
    | some x =>
      rw [hfa] at h
      cases hml : l.mapM f with
      | none => rw [hml] at h; simp at h
      | some xs =>
        rw [hml] at h
        simp only [Option.bind_some, Option.pure_def, Option.bind_eq_bind,
          Option.some_bind] at h
        cases h
        obtain ⟨hlen, hidx⟩ := ih xs hml
        refine ⟨by simp [hlen], fun i => ?_⟩
        cases i with
        | zero => simp [hfa]
        | succ n => simp [hidx n]

theorem option_mapM_isSome {α β : Type} (f : α → Option β) :
    ∀ (l : List α), (∀ a ∈ l, (f a).isSome = true) → (l.mapM f).isSome = true := by
  intro l
  induction l with
  | nil => intro _; rw [List.mapM_nil]; rfl
  | cons a l ih =>
    intro h
    rw [List.mapM_cons]
    cases hfa : f a with
    | none =>
      have := h a (List.mem_cons_self a l)
      rw [hfa] at this
      cases this
    | some x =>
      have hl := ih (fun a' ha' => h a' (List.mem_cons_of_mem a ha'))
      cases hml : l.mapM f with
      | none => rw [hml] at hl; cases hl
      | some xs => simp [hml]

theorem except_mapM_mem {ε α β : Type} (f : α → Except ε β) :
    ∀ (l : List α) (out : List β), l.mapM f = .ok out →
      ∀ b ∈ out, ∃ a ∈ l, f a = .ok b := by
  intro l
  induction l with
  | nil =>
    intro out h b hb
    rw [List.mapM_nil] at h
    cases h
    simp at hb
  | cons a l ih =>
    intro out h b hb
    rw [List.mapM_cons] at h
    cases hfa : f a with
    | error e => rw [hfa] at h; simp [Bind.bind, Except.bind] at h
    | ok x =>
      rw [hfa] at h
      cases hml : l.mapM f with
      | error e =>
        rw [hml] at h
        simp [Bind.bind, Except.bind, Pure.pure] at h
      | ok xs =>
        rw [hml] at h
        simp only [Bind.bind, Except.bind, Pure.pure, Except.pure] at h
        cases h
        rcases List.mem_cons.mp hb with hb | hb
        · exact ⟨a, List.mem_cons_self a l, hb ▸ hfa⟩
        · obtain ⟨a', ha', hfa'⟩ := ih xs hml b hb
          exact ⟨a', List.mem_cons_of_mem a ha', hfa'⟩

theorem except_mapM_id {ε α : Type} (f : α → Except ε α)
    (hf : ∀ a r, f a = .ok r → r = a) :
    ∀ (l out : List α), l.mapM f = .ok out → out = l := by
  intro l
  induction l with
  | nil =>
    intro out h
    rw [List.mapM_nil] at h
    cases h
    rfl
  | cons a l ih =>
    intro out h
    rw [List.mapM_cons] at h
    cases hfa : f a with
    | error e => rw [hfa] at h; simp [Bind.bind, Except.bind] at h
    | ok x =>
      rw [hfa] at h
      cases hml : l.mapM f with
      | error e =>
        rw [hml] at h
        simp [Bind.bind, Except.bind, Pure.pure] at h
      | ok xs =>
        rw [hml] at h
        simp only [Bind.bind, Except.bind, Pure.pure, Except.pure] at h
        cases h
        rw [hf a x hfa, ih xs hml]

theorem setField_self (fs : List (String × JValue)) (k : String) (v : JValue)
    (h : JValue.getField fs k = some v) : JValue.setField fs k v = fs := by
  induction fs with
  | nil => simp [JValue.getField] at h
  | cons kv rest ih =>
    obtain ⟨k', w⟩ := kv
    by_cases hk : k' = k
    · subst hk
      simp [JValue.getField] at h
      simp [JValue.setField, h]
    · simp only [JValue.getField, if_neg hk] at h
      simp [JValue.setField, hk, ih h]

/-- C1: the claimed toleration of the `\x7b "variants": [...] \x7d` wrapper
fails on the code.  A bare list flows through the variant-listing path
unchanged, but `get_variants` coerces any non-list response to `[]`
(printify_api.py 138), so the wrapped shape reaches the callers as the
empty sequence (and is then treated as the empty-variants error case) even
though the callers' own unwrapping expression, applied to the raw response,
would extract the wrapped list. -/
theorem c1_wrapped_variants_become_empty :
    variantsSeq (.jarr [.jobj [("id", .jint 1)]]) = [.jobj [("id", .jint 1)]]
    ∧ get_variants (.jobj [("variants", .jarr [.jobj [("id", .jint 1)]])]) = []
    ∧ variantsSeq (.jobj [("variants", .jarr [.jobj [("id", .jint 1)]])]) = []
    ∧ unwrapVariants (.jobj [("variants", .jarr [.jobj [("id", .jint 1)]])])
        = .jarr [.jobj [("id", .jint 1)]] :=
  ⟨rfl, rfl, rfl, rfl⟩

/-- C6 fails on the code: the cited synthesis paths take the source
placeholder's position verbatim, without lower-casing.  For a variant whose
placeholder metadata carries position "Front", the generated placeholder's
position field is "Front", not the lower-cased "front" the claim
requires. -/
theorem c6_counterexample_position_not_lowercased :
    (generate_placeholders
        (.jobj [("placeholders", .jarr [.jobj [("position", .jstr "Front")]])])
        ⟨1, "Tee", "d", "b", "m"⟩).map
        (fun phs => phs.map (fun ph => ph.getD "position" .jnull))
      = some [.jstr "Front"]
    ∧ (tgPlaceholderEntry "Tee" (.jobj [("position", .jstr "Front")])).map
        (fun entry => entry.get "position") = some (some (.jstr "Front"))
    ∧ pyLower "Front" = "front"
    ∧ "Front" ≠ "front" :=
  ⟨rfl, rfl, rfl, by decide⟩

/-- C6 (amended): for every variant carrying truthy (list-shaped)
placeholder metadata, the synthesized print area contains one placeholder
per source entry, whose position is taken verbatim — not lower-cased — from
the source entry's position field, defaulting to "front" when the entry
lacks one; a variant without truthy placeholder metadata gets the single
default "front" placeholder.  The bulk generator's inline comprehension
takes positions the same way. -/
theorem c6_placeholder_positions_verbatim :
    (∀ (v : JValue) (bp : Blueprint) (phs out : List JValue),
      v.get "placeholders" = some (.jarr phs) → phs ≠ [] →
      generate_placeholders v bp = some out →
      out.length = phs.length ∧
      ∀ i : Nat, out[i]?.map (fun ph => ph.getD "position" .jnull)
          = phs[i]?.map (fun ph => ph.getD "position" (.jstr "front")))
    ∧ (∀ (v : JValue) (bp : Blueprint),
        (v.getD "placeholders" .jnull).truthy = false →
        generate_placeholders v bp =
          some [.jobj [("position", .jstr "front"),
                       ("images", .jarr [dynPlaceholderImage bp.title (.jstr "front")])]])
    ∧ (∀ (bpTitle : String) (ph entry : JValue),
        tgPlaceholderEntry bpTitle ph = some entry →
        entry.get "position" = some (ph.getD "position" (.jstr "front"))) := by
  refine ⟨fun v bp phs out hget hne hgen => ?_, fun v bp h => ?_, fun bpTitle ph entry h => ?_⟩
  · have htr : (v.getD "placeholders" .jnull).truthy = true := by
      rw [JValue.getD, hget]
      simpa [JValue.truthy] using hne
    rw [generate_placeholders, htr, if_pos rfl, hget] at hgen
    obtain ⟨hlen, hidx⟩ := option_mapM_getElem (placeholderEntry bp.title) phs out hgen
    refine ⟨hlen, fun i => ?_⟩
    by_cases hi : i < phs.length
    · have hp : phs[i]? = some phs[i] := List.getElem?_eq_getElem hi
      have ho : out[i]? = (placeholderEntry bp.title) phs[i] := by
        rw [hidx i, hp, Option.some_bind]
      have hsome : out[i]?.isSome = true := by
        rw [List.getElem?_eq_getElem (hlen ▸ hi)]
        rfl
      rw [ho] at hsome ⊢
      rw [hp]
      cases hph : phs[i] with
      | jobj fs => simp [placeholderEntry, JValue.getD, JValue.get, JValue.getField]
      | jnull => rw [hph] at hsome; cases hsome
      | jbool b => rw [hph] at hsome; cases hsome
      | jint n => rw [hph] at hsome; cases hsome
      | jfloat q => rw [hph] at hsome; cases hsome
      | jstr s => rw [hph] at hsome; cases hsome
      | jarr xs => rw [hph] at hsome; cases hsome
    · rw [List.getElem?_eq_none (by omega), List.getElem?_eq_none (by omega)]
      rfl
  · rw [generate_placeholders, h]
    rfl
  · cases ph with
    | jobj fs =>
      rw [tgPlaceholderEntry] at h
      injection h with h'
      rw [← h']
      rfl
    | jnull => cases h
    | jbool b => cases h
    | jint n => cases h
    | jfloat q => cases h
    | jstr s => cases h
    | jarr xs => cases h

theorem c6_placeholder_positions_verbatim_witness :
    (([.jobj [("position", .jstr "Front"),
              ("images", .jarr [dynPlaceholderImage "Tee" (.jstr "Front")])]] :
        List JValue).length
      = ([.jobj [("position", .jstr "Front")]] : List JValue).length)
    ∧ (([.jobj [("position", .jstr "Front"),
                ("images", .jarr [dynPlaceholderImage "Tee" (.jstr "Front")])]] :
          List JValue)[0]?.map (fun ph => ph.getD "position" .jnull)
        = ([.jobj [("position", .jstr "Front")]] : List JValue)[0]?.map
            (fun ph => ph.getD "position" (.jstr "front")))
    ∧ generate_placeholders (.jobj [("title", .jstr "v")]) ⟨1, "Tee", "d", "b", "m"⟩
        = some [.jobj [("position", .jstr "front"),
                       ("images", .jarr [dynPlaceholderImage "Tee" (.jstr "front")])]]
    ∧ (JValue.jobj [("position", .jstr "Back"),
          ("images", .jarr [tgPlaceholderImage "Tee" (.jstr "Back")])]).get "position"
        = some ((JValue.jobj [("position", .jstr "Back")]).getD "position" (.jstr "front")) :=
  ⟨(c6_placeholder_positions_verbatim.1
      (.jobj [("placeholders", .jarr [.jobj [("position", .jstr "Front")]])])
      ⟨1, "Tee", "d", "b", "m"⟩ _ _ rfl (List.cons_ne_nil _ _) rfl).1,
   (c6_placeholder_positions_verbatim.1
      (.jobj [("placeholders", .jarr [.jobj [("position", .jstr "Front")]])])
      ⟨1, "Tee", "d", "b", "m"⟩ _ _ rfl (List.cons_ne_nil _ _) rfl).2 0,
   c6_placeholder_positions_verbatim.2.1 (.jobj [("title", .jstr "v")])
      ⟨1, "Tee", "d", "b", "m"⟩ rfl,
   c6_placeholder_positions_verbatim.2.2 "Tee" (.jobj [("position", .jstr "Back")]) _ rfl⟩

theorem processImage_fail_id (upload : String → JValue → Except Unit UploadResult)
    (hfail : ∀ u n, upload u n = .error ()) (img r : JValue)
    (h : processImage upload img = .ok r) : r = img := by
  cases img with
  | jobj fs =>
    rw [processImage] at h
    split at h
    · rename_i u hu
      rw [hfail] at h
      split at h
      · injection h with h'; exact h'.symm
      · injection h with h'; exact h'.symm
    · exact absurd h (by simp)
    · injection h with h'; exact h'.symm
  | jnull => injection h with h'; exact h'.symm
  | jbool b => injection h with h'; exact h'.symm
  | jint n => injection h with h'; exact h'.symm
  | jfloat q => injection h with h'; exact h'.symm
  | jstr s => injection h with h'; exact h'.symm
  | jarr xs => injection h with h'; exact h'.symm

theorem processPlaceholderImages_fail_id
    (upload : String → JValue → Except Unit UploadResult)
    (hfail : ∀ u n, upload u n = .error ()) (ph r : JValue)
    (h : processPlaceholderImages upload ph = .ok r) : r = ph := by
  cases ph with
  | jobj fs =>
    rw [processPlaceholderImages] at h
    split at h
    · rename_i imgs himgs
      cases hm : imgs.mapM (processImage upload) with
      | error e => rw [hm] at h; simp [Except.map] at h
      | ok out =>
        rw [hm] at h
        have hout : out = imgs :=
          except_mapM_id _ (processImage_fail_id upload hfail) imgs out hm
        subst hout
        injection h with h'
        rw [← h']
        show JValue.jobj (JValue.setField fs "images" (.jarr out)) = JValue.jobj fs
        rw [setField_self fs "images" (.jarr out) himgs]
    · exact absurd h (by simp)
    · injection h with h'; exact h'.symm
  | jnull => exact absurd h (by simp [processPlaceholderImages])
  | jbool b => exact absurd h (by simp [processPlaceholderImages])
  | jint n => exact absurd h (by simp [processPlaceholderImages])
  | jfloat q => exact absurd h (by simp [processPlaceholderImages])
  | jstr s => exact absurd h (by simp [processPlaceholderImages])
  | jarr xs => exact absurd h (by simp [processPlaceholderImages])

theorem processPrintAreaImages_fail_id
    (upload : String → JValue → Except Unit UploadResult)
    (hfail : ∀ u n, upload u n = .error ()) (pa r : JValue)
    (h : processPrintAreaImages upload pa = .ok r) : r = pa := by
  cases pa with
  | jobj fs =>
    rw [processPrintAreaImages] at h
    split at h
    · rename_i phs hphs
      cases hm : phs.mapM (processPlaceholderImages upload) with
      | error e => rw [hm] at h; simp [Except.map] at h
      | ok out =>
        rw [hm] at h
        have hout : out = phs :=
          except_mapM_id _ (processPlaceholderImages_fail_id upload hfail) phs out hm
        subst hout
        injection h with h'
        rw [← h']
        show JValue.jobj (JValue.setField fs "placeholders" (.jarr out)) = JValue.jobj fs
        rw [setField_self fs "placeholders" (.jarr out) hphs]
    · exact absurd h (by simp)
    · injection h with h'; exact h'.symm
  | jnull => exact absurd h (by simp [processPrintAreaImages])
  | jbool b => exact absurd h (by simp [processPrintAreaImages])
  | jint n => exact absurd h (by simp [processPrintAreaImages])
  | jfloat q => exact absurd h (by simp [processPrintAreaImages])
  | jstr s => exact absurd h (by simp [processPrintAreaImages])
  | jarr xs => exact absurd h (by simp [processPrintAreaImages])

/-- C5 fails on the code for the image-processing path: a per-image upload
failure is caught inside `_process_images_in_product` and the original
placeholder image data is kept, with the walk returning a success value.
Concretely, for a product holding one placeholder image with an http url
and an uploader whose call fails, the processor succeeds and returns the
product unchanged — the swallowed-failure success value the claim says can
never be returned. -/
theorem c5_counterexample_swallowed_upload_failure :
    alwaysFailUpload "http://example.com/a.png" (.jstr "img") = .error ()
    ∧ pyStartsWith "http://example.com/a.png" "http" = true
    ∧ process_images_in_product alwaysFailUpload
        (.jobj [("title", .jstr "t"),
                ("print_areas", .jarr
                  [.jobj [("variant_ids", .jarr [.jint 1]),
                          ("placeholders", .jarr
                            [.jobj [("position", .jstr "front"),
                                    ("images", .jarr
                                      [.jobj [("id", .jstr "old"),
                                              ("name", .jstr "img"),
                                              ("url", .jstr "http://example.com/a.png"),
                                              ("preview_url", .jstr "http://example.com/a.png")]])]])]])])
      = .ok
        (.jobj [("title", .jstr "t"),
                ("print_areas", .jarr
                  [.jobj [("variant_ids", .jarr [.jint 1]),
                          ("placeholders", .jarr
                            [.jobj [("position", .jstr "front"),
                                    ("images", .jarr
                                      [.jobj [("id", .jstr "old"),
                                              ("name", .jstr "img"),
                                              ("url", .jstr "http://example.com/a.png"),
                                              ("preview_url", .jstr "http://example.com/a.png")]])]])]])]) :=
  ⟨rfl, rfl, rfl⟩

/-- C5 (amended): the propagation-policy exception extends to the
image-processing path: per-image upload failures are caught, logged and
swallowed, the original placeholder data is kept, and the walk returns a
success value.  With an uploader whose calls all fail, any run of
`_process_images_in_product` either raises for reasons unrelated to
uploading (malformed product data) or succeeds with the product data
unchanged. -/
theorem c5_image_failures_swallowed
    (upload : String → JValue → Except Unit UploadResult)
    (hfail : ∀ u n, upload u n = .error ()) (pd : JValue) :
    process_images_in_product upload pd = .error ()
    ∨ process_images_in_product upload pd = .ok pd := by
  cases hr : process_images_in_product upload pd with
  | error e => exact Or.inl rfl
  | ok r =>
    refine Or.inr ?_
    have hrp : r = pd := by
      cases pd with
      | jobj fs =>
        rw [process_images_in_product] at hr
        split at hr
        · rename_i pas hpas
          cases hm : pas.mapM (processPrintAreaImages upload) with
          | error e => rw [hm] at hr; simp [Except.map] at hr
          | ok out =>
            rw [hm] at hr
            have hout : out = pas :=
              except_mapM_id _ (processPrintAreaImages_fail_id upload hfail) pas out hm
            subst hout
            injection hr with h'
            rw [← h']
            show JValue.jobj (JValue.setField fs "print_areas" (.jarr out)) = JValue.jobj fs
            rw [setField_self fs "print_areas" (.jarr out) hpas]
        · exact absurd hr (by simp)
        · injection hr with h'; exact h'.symm
      | jnull => exact absurd hr (by simp [process_images_in_product])
      | jbool b => exact absurd hr (by simp [process_images_in_product])
      | jint n => exact absurd hr (by simp [process_images_in_product])
      | jfloat q => exact absurd hr (by simp [process_images_in_product])
      | jstr s => exact absurd hr (by simp [process_images_in_product])
      | jarr xs => exact absurd hr (by simp [process_images_in_product])
    rw [hrp]

theorem c5_image_failures_swallowed_witness :
    process_images_in_product alwaysFailUpload
        (.jobj [("print_areas", .jarr
          [.jobj [("placeholders", .jarr
            [.jobj [("position", .jstr "front"),
                    ("images", .jarr
                      [.jobj [("name", .jstr "img"),
                              ("url", .jstr "http://example.com/b.png")]])]])]])])
      = .error ()
    ∨ process_images_in_product alwaysFailUpload
        (.jobj [("print_areas", .jarr
          [.jobj [("placeholders", .jarr
            [.jobj [("position", .jstr "front"),
                    ("images", .jarr
                      [.jobj [("name", .jstr "img"),
                              ("url", .jstr "http://example.com/b.png")]])]])]])])
      = .ok (.jobj [("print_areas", .jarr
          [.jobj [("placeholders", .jarr
            [.jobj [("position", .jstr "front"),
                    ("images", .jarr
                      [.jobj [("name", .jstr "img"),
                              ("url", .jstr "http://example.com/b.png")]])]])]])]) :=
  c5_image_failures_swallowed alwaysFailUpload (fun _ _ => rfl) _

theorem except_map_set_ok {ε : Type} (x : Except ε (List JValue))
    (fs : List (String × JValue)) (k : String) (r : JValue)
    (h : x.map (fun out => (JValue.jobj fs).set k (.jarr out)) = .ok r) :
    ∃ out, x = .ok out ∧ r = .jobj (JValue.setField fs k (.jarr out)) := by
  cases x with
  | error e => simp [Except.map] at h
  | ok out =>
    refine ⟨out, rfl, ?_⟩
    injection h with h'
    exact h'.symm

theorem updateImage_angle (upl : UploadedImage) (pos img r : JValue)
    (h : updateImage upl pos img = .ok r) :
    ∃ n : Int, r.get "angle" = some (.jint n) := by
  cases img with
  | jobj fs =>
    rw [updateImage] at h
    split at h
    · exact absurd h (by simp)
    · rename_i a ha
      injection h with h'
      refine ⟨a, ?_⟩
      rw [← h']
      exact getField_setField _ _ _
  | jnull => exact absurd h (by simp [updateImage])
  | jbool b => exact absurd h (by simp [updateImage])
  | jint n => exact absurd h (by simp [updateImage])
  | jfloat q => exact absurd h (by simp [updateImage])
  | jstr s => exact absurd h (by simp [updateImage])
  | jarr xs => exact absurd h (by simp [updateImage])

theorem updatePlaceholder_angle (front back : UploadedImage) (ph r : JValue)
    (h : updatePlaceholder front back ph = .ok r) :
    ∀ img ∈ imagesOfPlaceholder r, ∃ n : Int, img.get "angle" = some (.jint n) := by
  intro img hmem
  cases ph with
  | jobj fs =>
    rw [updatePlaceholder] at h
    split at h
    · rename_i imgs himgs
      obtain ⟨out, hm, hr⟩ := except_map_set_ok _ fs "images" r h
      have hio : imagesOfPlaceholder r = out := by
        subst hr
        unfold imagesOfPlaceholder
        rw [show (JValue.jobj (JValue.setField fs "images" (.jarr out))).get "images"
            = some (.jarr out) from getField_setField _ _ _]
      rw [hio] at hmem
      obtain ⟨im, _, him⟩ := except_mapM_mem _ imgs out hm img hmem
      exact updateImage_angle _ _ im img him
    · exact absurd h (by simp)
    · rename_i hnone
      injection h with h'
      subst h'
      rw [imagesOfPlaceholder, hnone] at hmem
      simp at hmem
  | jnull => exact absurd h (by simp [updatePlaceholder])
  | jbool b => exact absurd h (by simp [updatePlaceholder])
  | jint n => exact absurd h (by simp [updatePlaceholder])
  | jfloat q => exact absurd h (by simp [updatePlaceholder])
  | jstr s => exact absurd h (by simp [updatePlaceholder])
  | jarr xs => exact absurd h (by simp [updatePlaceholder])

theorem updatePrintArea_angle (front back : UploadedImage) (pa r : JValue)
    (h : updatePrintArea front back pa = .ok r) :
    ∀ img ∈ imagesOfPrintArea r, ∃ n : Int, img.get "angle" = some (.jint n) := by
  intro img hmem
  cases pa with
  | jobj fs =>
    rw [updatePrintArea] at h
    split at h
    · rename_i phs hphs
      obtain ⟨out, hm, hr⟩ := except_map_set_ok _ fs "placeholders" r h
      have hio : imagesOfPrintArea r = out.flatMap imagesOfPlaceholder := by
        subst hr
        unfold imagesOfPrintArea
        rw [show (JValue.jobj (JValue.setField fs "placeholders" (.jarr out))).get
            "placeholders" = some (.jarr out) from getField_setField _ _ _]
      rw [hio] at hmem
      obtain ⟨ph', hph', himg⟩ := List.mem_flatMap.mp hmem
      obtain ⟨ph, _, hup⟩ := except_mapM_mem _ phs out hm ph' hph'
      exact updatePlaceholder_angle front back ph ph' hup img himg
    · exact absurd h (by simp)
    · rename_i hnone
      injection h with h'
      subst h'
      rw [imagesOfPrintArea, hnone] at hmem
      simp at hmem
  | jnull => exact absurd h (by simp [updatePrintArea])
  | jbool b => exact absurd h (by simp [updatePrintArea])
  | jint n => exact absurd h (by simp [updatePrintArea])
  | jfloat q => exact absurd h (by simp [updatePrintArea])
  | jstr s => exact absurd h (by simp [updatePrintArea])
  | jarr xs => exact absurd h (by simp [updatePrintArea])

/-- C9: in the submission path's image-update phase, every placeholder
image of the updated product carries an integer angle (the field is set to
`int(image.get('angle', 0))`); in particular an image whose angle is the
float 0.0 comes out with integer angle 0. -/
theorem c9_angle_coerced_to_int :
    (∀ (front back : UploadedImage) (pd r : JValue),
      updateProductImages front back pd = .ok r →
      ∀ img ∈ imagesOf r, ∃ n : Int, img.get "angle" = some (.jint n))
    ∧ updateImage ⟨"id1", "purl"⟩ (.jstr "front")
        (.jobj [("id", .jstr "old"), ("name", .jstr "n"), ("url", .jstr "u"),
                ("preview_url", .jstr "p"), ("x", .jint 0), ("y", .jint 0),
                ("scale", .jint 1), ("angle", .jfloat 0)])
        = .ok (.jobj [("id", .jstr "id1"), ("name", .jstr "front_design.jpg"),
                      ("url", .jstr "purl"), ("preview_url", .jstr "purl"),
                      ("x", .jint 0), ("y", .jint 0), ("scale", .jint 1),
                      ("angle", .jint 0)]) := by
  refine ⟨fun front back pd r h img hmem => ?_, rfl⟩
  cases pd with
  | jobj fs =>
    rw [updateProductImages] at h
    split at h
    · rename_i pas hpas
      obtain ⟨out, hm, hr⟩ := except_map_set_ok _ fs "print_areas" r h
      have hio : imagesOf r = out.flatMap imagesOfPrintArea := by
        subst hr
        unfold imagesOf
        rw [show (JValue.jobj (JValue.setField fs "print_areas" (.jarr out))).get
            "print_areas" = some (.jarr out) from getField_setField _ _ _]
      rw [hio] at hmem
      obtain ⟨pa', hpa', himg⟩ := List.mem_flatMap.mp hmem
      obtain ⟨pa, _, hup⟩ := except_mapM_mem _ pas out hm pa' hpa'
      exact updatePrintArea_angle front back pa pa' hup img himg
    · exact absurd h (by simp)
    · rename_i hnone
      injection h with h'
      subst h'
      rw [imagesOf, hnone] at hmem
      simp at hmem
  | jnull => exact absurd h (by simp [updateProductImages])
  | jbool b => exact absurd h (by simp [updateProductImages])
  | jint n => exact absurd h (by simp [updateProductImages])
  | jfloat q => exact absurd h (by simp [updateProductImages])
  | jstr s => exact absurd h (by simp [updateProductImages])
  | jarr xs => exact absurd h (by simp [updateProductImages])

theorem c9_angle_coerced_to_int_witness :
    ∃ n : Int,
      (JValue.jobj [("id", .jstr "f1"), ("name", .jstr "front_design.jpg"),
                    ("url", .jstr "pf"), ("preview_url", .jstr "pf"),
                    ("angle", .jint 0)]).get "angle" = some (.jint n) :=
  c9_angle_coerced_to_int.1 ⟨"f1", "pf"⟩ ⟨"b1", "pb"⟩
    (.jobj [("print_areas", .jarr
      [.jobj [("placeholders", .jarr
        [.jobj [("position", .jstr "front"),
                ("images", .jarr
                  [.jobj [("id", .jstr "old"), ("name", .jstr "x"),
                          ("url", .jstr "u"), ("preview_url", .jstr "p"),
                          ("angle", .jfloat 0)]])]])]])])
    (.jobj [("print_areas", .jarr
      [.jobj [("placeholders", .jarr
        [.jobj [("position", .jstr "front"),
                ("images", .jarr
                  [.jobj [("id", .jstr "f1"), ("name", .jstr "front_design.jpg"),
                          ("url", .jstr "pf"), ("preview_url", .jstr "pf"),
                          ("angle", .jint 0)]])]])]])])
    rfl
    (.jobj [("id", .jstr "f1"), ("name", .jstr "front_design.jpg"),
            ("url", .jstr "pf"), ("preview_url", .jstr "pf"),
            ("angle", .jint 0)])
    (by simp [imagesOf, imagesOfPrintArea, imagesOfPlaceholder, JValue.get,
      JValue.getField])

theorem mapM_map_some {α β γ : Type} (g : α → β) (f : β → Option γ) (h : α → γ)
    (hfg : ∀ a, f (g a) = some (h a)) :
    ∀ l : List α, (l.map g).mapM f = some (l.map h) := by
  intro l
  induction l with
  | nil => rfl
  | cons a l ih =>
    rw [List.map_cons, List.mapM_cons, hfg, ih, List.map_cons]
    rfl

theorem pa_mapM_shape (F : JValue → Option (List JValue))
    (variants printAreas : List JValue)
    (hpa : variants.mapM (fun v => (F v).map (fun phs =>
        (.jobj [("variant_ids", .jarr [v.getD "id" .jnull]),
                ("placeholders", .jarr phs)] : JValue))) = some printAreas) :
    ∀ pa ∈ printAreas, ∃ v ∈ variants,
      pa.get "variant_ids" = some (.jarr [v.getD "id" .jnull]) := by
  intro pa hmem
  obtain ⟨v, hv, hfv⟩ := option_mapM_mem _ variants printAreas hpa pa hmem
  refine ⟨v, hv, ?_⟩
  cases hF : F v with
  | none => rw [hF] at hfv; cases hfv
  | some phs =>
    rw [hF] at hfv
    injection hfv with h'
    rw [← h']
    rfl

/-- C3: for both synthesis paths, a successfully synthesized descriptor —
whose JSON serialization and re-parse is the identity on these finite
values, so the re-parsed descriptor reads back exactly these fields —
declares variant ids and print areas such that every print area's
variant-id list is a subset of the declared variant ids. -/
theorem c3_print_area_ids_subset :
    (∀ (blueprints : List Blueprint) (providers : List PrintProvider)
        (bid pid : Int) (vr cust t : JValue),
      generate_product_template blueprints providers bid pid vr cust = .ok t →
      ∃ vids pids, templateVariantIds t = some vids ∧
        templatePrintAreaIds t = some pids ∧
        ∀ ids ∈ pids, ∀ x ∈ ids, x ∈ vids)
    ∧ (∀ (bp : Blueprint) (p : PrintProvider) (vresp : Except Unit JValue)
        (t : JValue),
      generate_template_for_combination bp p vresp = some t →
      ∃ vids pids, templateVariantIds t = some vids ∧
        templatePrintAreaIds t = some pids ∧
        ∀ ids ∈ pids, ∀ x ∈ ids, x ∈ vids) := by
  constructor
  · intro blueprints providers bid pid vr cust t h
    rw [generate_product_template] at h
    split at h
    · cases h
    · rename_i blueprint hbp
      split at h
      · cases h
      · rename_i provider hpv
        simp only [] at h
        split at h
        · cases h
        · split at h
          · cases h
          · split at h
            · cases h
            · rename_i printAreas hpa
              injection h with h'
              subst h'
              refine ⟨(variantsSeq vr).map (fun v => v.getD "id" .jnull), ?_⟩
              have hvids : templateVariantIds (JValue.jobj
                  [("title", if cust.truthy then cust.getD "title"
                      (.jstr (blueprint.title ++ " - " ++ provider.title))
                    else .jstr (blueprint.title ++ " - " ++ provider.title)),
                   ("description", if cust.truthy then cust.getD "description"
                      (.jstr blueprint.description)
                    else .jstr blueprint.description),
                   ("blueprint_id", .jint bid),
                   ("print_provider_id", .jint pid),
                   ("variants", .jarr ((variantsSeq vr).map
                     (dynVariantRecord (categorize_blueprint blueprint)
                       (if cust.truthy then cust.getD "price"
                           (.jint (estimate_price (categorize_blueprint blueprint)))
                         else .jint (estimate_price (categorize_blueprint blueprint)))
                       (((variantsSeq vr).headD .jnull).getD "id" .jnull)))),
                   ("print_areas", .jarr printAreas)])
                  = some ((variantsSeq vr).map (fun v => v.getD "id" .jnull)) := by
                show ((variantsSeq vr).map
                    (dynVariantRecord (categorize_blueprint blueprint) _ _)).mapM
                    (fun v => v.get "id")
                    = some ((variantsSeq vr).map (fun v => v.getD "id" .jnull))
                apply mapM_map_some
                intro a
                rfl
              have hshape := pa_mapM_shape _ (variantsSeq vr) printAreas hpa
              have hsome : (templatePrintAreaIds (JValue.jobj
                  [("title", if cust.truthy then cust.getD "title"
                      (.jstr (blueprint.title ++ " - " ++ provider.title))
                    else .jstr (blueprint.title ++ " - " ++ provider.title)),
                   ("description", if cust.truthy then cust.getD "description"
                      (.jstr blueprint.description)
                    else .jstr blueprint.description),
                   ("blueprint_id", .jint bid),
                   ("print_provider_id", .jint pid),
                   ("variants", .jarr ((variantsSeq vr).map
                     (dynVariantRecord (categorize_blueprint blueprint)
                       (if cust.truthy then cust.getD "price"
                           (.jint (estimate_price (categorize_blueprint blueprint)))
                         else .jint (estimate_price (categorize_blueprint blueprint)))
                       (((variantsSeq vr).headD .jnull).getD "id" .jnull)))),
                   ("print_areas", .jarr printAreas)])).isSome = true := by
                show ((printAreas.mapM _ : Option (List (List JValue)))).isSome = true
                apply option_mapM_isSome
                intro pa hpa'
                obtain ⟨v, hv, hvid⟩ := hshape pa hpa'
                rw [hvid]
                rfl
              obtain ⟨pids, hpids⟩ := Option.isSome_iff_exists.mp hsome
              refine ⟨pids, hvids, hpids, ?_⟩
              intro ids hids x hx
              obtain ⟨pa, hpaM, hE⟩ :=
                option_mapM_mem _ printAreas pids hpids ids hids
              obtain ⟨v, hv, hvid⟩ := hshape pa hpaM
              rw [hvid] at hE
              injection hE with h'
              rw [← h'] at hx
              rcases List.mem_singleton.mp hx with rfl
              exact List.mem_map.mpr ⟨v, hv, rfl⟩
  · intro bp p vresp t h
    rw [generate_template_for_combination.eq_def] at h
    split at h
    · cases h
    · rename_i vr
      simp only [] at h
      split at h
      · cases h
      · split at h
        · cases h
        · split at h
          · cases h
          · rename_i dv rest hfil
            split at h
            · cases h
            · rename_i placeholders hph
              injection h with h'
              subst h'
              refine ⟨[dv.getD "id" .jnull], [[dv.getD "id" .jnull]], rfl, rfl, ?_⟩
              intro ids hids x hx
              rcases List.mem_singleton.mp hids with rfl
              exact hx

theorem c3_print_area_ids_subset_witness :
    (∃ vids pids,
      templateVariantIds (.jobj
        [("title", .jstr "B - P"),
         ("description", .jstr ""),
         ("blueprint_id", .jint 1),
         ("print_provider_id", .jint 2),
         ("variants", .jarr [.jobj [("id", .jint 10), ("price", .jint 2000),
            ("is_enabled", .jbool true), ("is_default", .jbool true),
            ("grams", .jint 200), ("options", .jarr [])]]),
         ("print_areas", .jarr [.jobj [("variant_ids", .jarr [.jint 10]),
            ("placeholders", .jarr [.jobj [("position", .jstr "front"),
              ("images", .jarr [dynPlaceholderImage "B" (.jstr "front")])]])]])])
        = some vids ∧
      templatePrintAreaIds (.jobj
        [("title", .jstr "B - P"),
         ("description", .jstr ""),
         ("blueprint_id", .jint 1),
         ("print_provider_id", .jint 2),
         ("variants", .jarr [.jobj [("id", .jint 10), ("price", .jint 2000),
            ("is_enabled", .jbool true), ("is_default", .jbool true),
            ("grams", .jint 200), ("options", .jarr [])]]),
         ("print_areas", .jarr [.jobj [("variant_ids", .jarr [.jint 10]),
            ("placeholders", .jarr [.jobj [("position", .jstr "front"),
              ("images", .jarr [dynPlaceholderImage "B" (.jstr "front")])]])]])])
        = some pids ∧
      ∀ ids ∈ pids, ∀ x ∈ ids, x ∈ vids)
    ∧ (∃ vids pids,
      templateVariantIds (.jobj
        [("title", .jstr "B - P"), ("description", .jstr ""),
         ("blueprint_id", .jint 1), ("print_provider_id", .jint 2),
         ("blueprint_title", .jstr "B"), ("print_provider_title", .jstr "P"),
         ("brand", .jstr ""), ("model", .jstr ""),
         ("variants", .jarr [.jobj [("id", .jint 10), ("price", .jint 2500),
            ("is_enabled", .jbool true), ("is_default", .jbool true),
            ("grams", .jint 180), ("options", .jarr [])]]),
         ("print_areas", .jarr [.jobj [("variant_ids", .jarr [.jint 10]),
            ("placeholders", .jarr [tgDefaultFrontPlaceholder "B"])]])])
        = some vids ∧
      templatePrintAreaIds (.jobj
        [("title", .jstr "B - P"), ("description", .jstr ""),
         ("blueprint_id", .jint 1), ("print_provider_id", .jint 2),
         ("blueprint_title", .jstr "B"), ("print_provider_title", .jstr "P"),
         ("brand", .jstr ""), ("model", .jstr ""),
         ("variants", .jarr [.jobj [("id", .jint 10), ("price", .jint 2500),
            ("is_enabled", .jbool true), ("is_default", .jbool true),
            ("grams", .jint 180), ("options", .jarr [])]]),
         ("print_areas", .jarr [.jobj [("variant_ids", .jarr [.jint 10]),
            ("placeholders", .jarr [tgDefaultFrontPlaceholder "B"])]])])
        = some pids ∧
      ∀ ids ∈ pids, ∀ x ∈ ids, x ∈ vids) :=
  ⟨c3_print_area_ids_subset.1 [⟨1, "B", "", "", ""⟩] [⟨2, "P", .jstr "x"⟩] 1 2
      (.jarr [.jobj [("id", .jint 10)]]) .jnull _ rfl,
   c3_print_area_ids_subset.2 ⟨1, "B", "", "", ""⟩ ⟨2, "P", .jstr "x"⟩
      (.ok (.jarr [.jobj [("id", .jint 10)]])) _ rfl⟩

theorem good_combination (bp : Blueprint) (p : PrintProvider) (vs : List JValue)
    (hg : goodVariantList vs = true) :
    (generate_template_for_combination bp p (.ok (.jarr vs))).isSome = true := by
  rw [goodVariantList] at hg
  simp only [Bool.and_eq_true] at hg
  obtain ⟨⟨h1, h2⟩, h3⟩ := hg
  rw [generate_template_for_combination.eq_def]
  dsimp only
  rw [show variantsSeq (.jarr vs) = vs from rfl]
  rw [if_neg (by simp only [Bool.not_eq_true'] at h1; simp [h1]),
    if_neg (by simp [h2])]
  cases hfil : vs.filter (fun v => (v.getD "id" .jnull).truthy) with
  | nil => rw [hfil] at h3; cases h3
  | cons dv rest =>
    rw [hfil] at h3
    dsimp only at h3 ⊢
    by_cases htr : (dv.getD "placeholders" .jnull).truthy = true
    · rw [if_pos htr] at h3 ⊢
      cases hgp : dv.get "placeholders" with
      | none => rw [hgp] at h3; dsimp only at h3; cases h3
      | some x =>
        cases x with
        | jarr phs =>
          rw [hgp] at h3
          dsimp only at h3 ⊢
          have hm : (phs.mapM (tgPlaceholderEntry bp.title)).isSome = true := by
            apply option_mapM_isSome
            intro ph hph
            have hobj : isJObj ph = true := by
              rw [List.all_eq_true] at h3
              exact h3 ph hph
            cases ph <;> first | rfl | exact absurd hobj (by simp [isJObj])
          obtain ⟨pls, hpls⟩ := Option.isSome_iff_exists.mp hm
          rw [hpls]
          rfl
        | jnull => rw [hgp] at h3; dsimp only at h3; cases h3
        | jbool b => rw [hgp] at h3; dsimp only at h3; cases h3
        | jint n => rw [hgp] at h3; dsimp only at h3; cases h3
        | jfloat q => rw [hgp] at h3; dsimp only at h3; cases h3
        | jstr s => rw [hgp] at h3; dsimp only at h3; cases h3
        | jobj fs => rw [hgp] at h3; dsimp only at h3; cases h3
    · rw [if_neg htr]
      rfl

theorem fold_providers (cat : Catalog) (bp : Blueprint) :
    ∀ (ps : List PrintProvider) (n : Nat),
      ps.foldl (processProvider cat bp) n =
        n + ps.countP (fun p =>
          (generate_template_for_combination bp p (cat.variantsFor bp.id p.id)).isSome) := by
  intro ps
  induction ps with
  | nil => intro n; simp
  | cons p ps ih =>
    intro n
    rw [List.foldl_cons, List.countP_cons, ih]
    rw [processProvider]
    cases hgen : generate_template_for_combination bp p (cat.variantsFor bp.id p.id) with
    | none => simp [hgen]
    | some t => simp [hgen]; omega

theorem fold_good_blueprints (cat : Catalog) (provs : Blueprint → List PrintProvider) :
    ∀ (bps : List Blueprint) (acc : GenSummary),
      (∀ bp ∈ bps, cat.providersFor bp.id = .ok (provs bp) ∧ provs bp ≠ []) →
      bps.foldl (processBlueprint cat) acc =
        ⟨acc.total_templates + (bps.map (fun bp => (provs bp).countP
            (fun p => (generate_template_for_combination bp p
              (cat.variantsFor bp.id p.id)).isSome))).sum,
         acc.total_blueprints + bps.length⟩ := by
  intro bps
  induction bps with
  | nil => intro acc _; simp
  | cons bp bps ih =>
    intro acc h
    obtain ⟨hok, hne⟩ := h bp (List.mem_cons_self bp bps)
    rw [List.foldl_cons]
    rw [show processBlueprint cat acc bp =
        ⟨acc.total_templates + (provs bp).countP
            (fun p => (generate_template_for_combination bp p
              (cat.variantsFor bp.id p.id)).isSome),
         acc.total_blueprints + 1⟩ by
      rw [processBlueprint, hok]
      dsimp only
      rw [if_neg (by simp [List.isEmpty_iff, hne])]
      rw [fold_providers]]
    rw [ih _ (fun b hb => h b (List.mem_cons_of_mem bp hb))]
    simp only [List.map_cons, List.sum_cons, List.length_cons]
    congr 1 <;> omega

/-- C2: over a 3-blueprint catalog where exactly one blueprint has zero
print providers, bulk generation skips that blueprint (and any combination
whose variant fetch fails or yields no usable template — such combinations
are simply not counted, and do not abort the run) and reports
total_blueprints = 2 and total_templates equal to the number of provider
combinations across the two remaining blueprints whose template generation
succeeds; a provider whose variant fetch returns a good non-empty variant
list is guaranteed to yield one template, so when all providers are good
total_templates is the sum of providers across the two blueprints. -/
theorem c2_bulk_generation_counts (cat : Catalog) (pre post : List Blueprint)
    (bEmpty : Blueprint) (provs : Blueprint → List PrintProvider)
    (hbps : cat.blueprints = pre ++ bEmpty :: post)
    (hlen : pre.length + post.length = 2)
    (hempty : cat.providersFor bEmpty.id = .ok [])
    (hgood : ∀ bp ∈ pre ++ post,
      cat.providersFor bp.id = .ok (provs bp) ∧ provs bp ≠ []) :
    (generate_all_templates cat).total_blueprints = 2 ∧
    (generate_all_templates cat).total_templates =
      ((pre ++ post).map (fun bp => (provs bp).countP
        (fun p => (generate_template_for_combination bp p
          (cat.variantsFor bp.id p.id)).isSome))).sum ∧
    ∀ (bp : Blueprint) (p : PrintProvider) (vs : List JValue),
      cat.variantsFor bp.id p.id = .ok (.jarr vs) → goodVariantList vs = true →
      (generate_template_for_combination bp p
        (cat.variantsFor bp.id p.id)).isSome = true := by
  have hpre : ∀ bp ∈ pre, cat.providersFor bp.id = .ok (provs bp) ∧ provs bp ≠ [] :=
    fun bp hb => hgood bp (List.mem_append_left _ hb)
  have hpost : ∀ bp ∈ post, cat.providersFor bp.id = .ok (provs bp) ∧ provs bp ≠ [] :=
    fun bp hb => hgood bp (List.mem_append_right _ hb)
  have hstep : ∀ acc : GenSummary, processBlueprint cat acc bEmpty = acc := by
    intro acc
    rw [processBlueprint, hempty]
    rfl
  have hfold : generate_all_templates cat =
      ⟨(pre.map (fun bp => (provs bp).countP
          (fun p => (generate_template_for_combination bp p
            (cat.variantsFor bp.id p.id)).isSome))).sum +
        (post.map (fun bp => (provs bp).countP
          (fun p => (generate_template_for_combination bp p
            (cat.variantsFor bp.id p.id)).isSome))).sum,
       pre.length + post.length⟩ := by
    rw [generate_all_templates, hbps, List.foldl_append, List.foldl_cons, hstep]
    rw [fold_good_blueprints cat provs pre ⟨0, 0⟩ hpre]
    rw [fold_good_blueprints cat provs post _ hpost]
    simp
  refine ⟨?_, ?_, ?_⟩
  · rw [hfold]
    exact hlen
  · rw [hfold, List.map_append, List.sum_append]
  · intro bp p vs hv hg
    rw [hv]
    exact good_combination bp p vs hg

theorem c2_bulk_generation_counts_witness :
    (generate_all_templates
      ⟨[⟨1, "A", "", "", ""⟩, ⟨2, "B", "", "", ""⟩, ⟨3, "C", "", "", ""⟩],
       fun bid => if bid = 1 then .ok [⟨10, "P1", .jstr "x"⟩]
         else if bid = 3 then .ok [⟨30, "P3", .jstr "x"⟩, ⟨31, "P4", .jstr "y"⟩]
         else .ok [],
       fun _ _ => .ok (.jarr [.jobj [("id", .jint 7)]])⟩).total_blueprints = 2
    ∧ (generate_all_templates
      ⟨[⟨1, "A", "", "", ""⟩, ⟨2, "B", "", "", ""⟩, ⟨3, "C", "", "", ""⟩],
       fun bid => if bid = 1 then .ok [⟨10, "P1", .jstr "x"⟩]
         else if bid = 3 then .ok [⟨30, "P3", .jstr "x"⟩, ⟨31, "P4", .jstr "y"⟩]
         else .ok [],
       fun _ _ => .ok (.jarr [.jobj [("id", .jint 7)]])⟩).total_templates = 3 :=
  ⟨(c2_bulk_generation_counts _ [⟨1, "A", "", "", ""⟩] [⟨3, "C", "", "", ""⟩]
      ⟨2, "B", "", "", ""⟩
      (fun bp => if bp.id = 1 then [⟨10, "P1", .jstr "x"⟩]
        else if bp.id = 3 then [⟨30, "P3", .jstr "x"⟩, ⟨31, "P4", .jstr "y"⟩]
        else [])
      rfl rfl rfl
      (fun bp hbp => by
        rcases List.mem_cons.mp hbp with rfl | hbp'
        · exact ⟨rfl, List.cons_ne_nil _ _⟩
        · rcases List.mem_cons.mp hbp' with rfl | hbp''
          · exact ⟨rfl, List.cons_ne_nil _ _⟩
          · cases hbp'')).1,
   ((c2_bulk_generation_counts _ [⟨1, "A", "", "", ""⟩] [⟨3, "C", "", "", ""⟩]
      ⟨2, "B", "", "", ""⟩
      (fun bp => if bp.id = 1 then [⟨10, "P1", .jstr "x"⟩]
        else if bp.id = 3 then [⟨30, "P3", .jstr "x"⟩, ⟨31, "P4", .jstr "y"⟩]
        else [])
      rfl rfl rfl
      (fun bp hbp => by
        rcases List.mem_cons.mp hbp with rfl | hbp'
        · exact ⟨rfl, List.cons_ne_nil _ _⟩
        · rcases List.mem_cons.mp hbp' with rfl | hbp''
          · exact ⟨rfl, List.cons_ne_nil _ _⟩
          · cases hbp'')).2.1).trans rfl⟩
